import Mathlib

/-!
Verification of the jin_ai real-time streaming voice pipeline.

Shallow embedding of the components referenced by the specification:
the audio chunker, the edge jitter buffer and playback engine, the
transcript handling of the optimized streaming consumer and token-to-TTS
flushing, per-sentence error handling of the streaming TTS service, the
edge silence detector, and the outbound frame ordering of the server.

PCM byte strings are modelled as lists of naturals, Python floats as
rationals, and Python text as Lean strings (or lists of characters where
structural reasoning about whitespace is needed).
-/

namespace JinAI

/-! ## Audio chunker (src/backend/core/agents/ws/audio_chunker.py)

chunk_audio computes samples_per_chunk = int(sample_rate * chunk_duration_ms
/ 1000) and chunk_size = samples_per_chunk * bytes_per_sample, then slices
the input in a while loop advancing offset by chunk_size.  The loop is
modelled with explicit fuel because the source loop does not terminate when
chunk_size = 0. -/

def samplesPerChunk (sampleRate chunkDurationMs : Nat) : Nat :=
  sampleRate * chunkDurationMs / 1000

def chunkSizeBytes (sampleRate chunkDurationMs bytesPerSample : Nat) : Nat :=
  samplesPerChunk sampleRate chunkDurationMs * bytesPerSample

/-- One fuel-indexed unfolding of the while loop in chunk_audio: take the
next chunk_size bytes and continue on the rest. -/
def chunkAudioGo (chunkSize : Nat) : Nat → List Nat → Option (List (List Nat))
  | _, [] => some []
  | 0, _ :: _ => none
  | fuel + 1, x :: xs =>
      (chunkAudioGo chunkSize fuel ((x :: xs).drop chunkSize)).map
        (fun rest => (x :: xs).take chunkSize :: rest)

/-- chunk_audio with fuel equal to the input length (enough whenever the
loop terminates at all, since a positive chunk_size consumes at least one
byte per iteration). -/
def chunkAudio (audioBytes : List Nat)
    (sampleRate chunkDurationMs bytesPerSample : Nat) :
    Option (List (List Nat)) :=
  chunkAudioGo (chunkSizeBytes sampleRate chunkDurationMs bytesPerSample)
    audioBytes.length audioBytes

/-- The loop of chunk_audio never finishes on this input, no matter how
much fuel it is given. -/
def chunkAudioDiverges (audioBytes : List Nat)
    (sampleRate chunkDurationMs bytesPerSample : Nat) : Prop :=
  ∀ fuel,
    chunkAudioGo (chunkSizeBytes sampleRate chunkDurationMs bytesPerSample)
      fuel audioBytes = none

/-! ## Edge jitter buffer (src/jin_edge/audio/buffer.py) and
playback feed (src/jin_edge/audio/player.py)

AudioBuffer.push appends a chunk while the total byte count stays within
max_size; when the new chunk would exceed max_size it returns False and
leaves the buffer untouched.  AudioPlayer.feed rejects chunks outside an
active session, accepts empty chunks as a no-op, trims a trailing byte of
an odd-length chunk, then delegates to push. -/

structure AudioBuffer where
  chunks : List (List Nat)
  maxSize : Nat
  currentSize : Nat
deriving DecidableEq, Repr

def AudioBuffer.push (b : AudioBuffer) (data : List Nat) :
    AudioBuffer × Bool :=
  if data = [] then (b, true)
  else if b.maxSize < b.currentSize + data.length then (b, false)
  else
    ({ b with chunks := b.chunks ++ [data],
              currentSize := b.currentSize + data.length }, true)

structure AudioPlayer where
  sessionActive : Bool
  buffer : AudioBuffer
deriving DecidableEq, Repr

def AudioPlayer.feed (p : AudioPlayer) (pcmBytes : List Nat) :
    AudioPlayer × Bool :=
  if p.sessionActive = false then (p, false)
  else if pcmBytes = [] then (p, true)
  else
    let aligned :=
      if pcmBytes.length % 2 ≠ 0 then pcmBytes.dropLast else pcmBytes
    let pushed := p.buffer.push aligned
    ({ p with buffer := pushed.1 }, pushed.2)

/-- A concrete full player: capacity 4 bytes, already holding the chunks
[1, 1] (the oldest) and [2, 2]. -/
def fullPlayer : AudioPlayer :=
  { sessionActive := true,
    buffer := { chunks := [[1, 1], [2, 2]], maxSize := 4, currentSize := 4 } }

/-! ## Playback fades (src/jin_edge/audio/player.py)

_playback_loop pops chunks while the session is active, applying
apply_fade_in to the very first chunk of the session only; when the
session ends it calls _drain_buffer_with_fadeout, which writes the
chunks remaining in the jitter buffer plain and applies apply_fade_out
to the last of them (no fade-out at all when that residue is empty).
Each written chunk is annotated with the fade shaping it received. -/

inductive Fade
  | plain
  | fadeIn
  | fadeOut
deriving DecidableEq, Repr

/-- Chunks written by the PLAYING branch of _playback_loop, in pop order;
the flag records whether the next chunk is the first of the session. -/
def playingWrites : Bool → List (List Nat) → List (List Nat × Fade)
  | _, [] => []
  | first, c :: rest =>
      (c, if first then Fade.fadeIn else Fade.plain) :: playingWrites false rest

/-- Chunks written by _drain_buffer_with_fadeout from the residual buffer:
every chunk before the last is written plain, the last gets fade-out. -/
def drainWrites : List (List Nat) → List (List Nat × Fade)
  | [] => []
  | [c] => [(c, Fade.fadeOut)]
  | c :: c2 :: rest => (c, Fade.plain) :: drainWrites (c2 :: rest)

/-- All chunks a playback session writes to the output device: `played`
are the chunks popped while the session was active, `residual` is the
jitter-buffer content when the drain of end_session begins. -/
def sessionWrites (played residual : List (List Nat)) :
    List (List Nat × Fade) :=
  playingWrites true played ++ drainWrites residual

/-! ## Python text as character lists

String.trim does not reduce inside the kernel, so Python text handled by
the server components is modelled as a list of characters, with strip()
as removal of leading and trailing whitespace. -/

/-- Python str.strip(): drop leading and trailing whitespace. -/
def pyStrip (s : List Char) : List Char :=
  ((s.dropWhile Char.isWhitespace).reverse.dropWhile Char.isWhitespace).reverse

/-! ## Transcript processing
(src/backend/core/agents/ws/optimized_streaming_consumer.py)

_process_transcript updates current_transcript on finals (or on an
interim promoted after audio stopped with confidence above 0.95),
then triggers response generation on speech_final or a confident final
with non-blank text, skipping duplicates of a transcript that already
started a generation.  Confidence is a rational standing for the float. -/

structure ConsumerState where
  isReceivingAudio : Bool
  currentTranscript : List Char
  lastInterimTranscript : List Char
  /-- whether response_start_time has been set (truthy) by a previous
  _generate_response call -/
  responseStarted : Bool
deriving DecidableEq, Repr

structure TranscriptEvent where
  text : List Char
  isFinal : Bool
  speechFinal : Bool
  confidence : ℚ
deriving DecidableEq, Repr

/-- The promotion test of the interim branch: client stopped sending
audio, confidence strictly above 0.95, non-blank text. -/
def promotesInterim (st : ConsumerState) (ev : TranscriptEvent) : Bool :=
  !ev.isFinal && !st.isReceivingAudio &&
    decide ((95 : ℚ)/100 < ev.confidence) && !(pyStrip ev.text == [])

/-- Transcript-state update: a final stores the text as
current_transcript, an interim stores it as last_interim_transcript, and
a promoted interim additionally overwrites current_transcript. -/
def afterTextUpdate (st : ConsumerState) (ev : TranscriptEvent) :
    ConsumerState :=
  if ev.isFinal then { st with currentTranscript := ev.text }
  else if promotesInterim st ev then
    { st with lastInterimTranscript := ev.text,
              currentTranscript := ev.text }
  else { st with lastInterimTranscript := ev.text }

/-- is_final after the promotion override. -/
def effectiveIsFinal (st : ConsumerState) (ev : TranscriptEvent) : Bool :=
  ev.isFinal || promotesInterim st ev

/-- The generation trigger: speech_final, or an (effective) final with
confidence above 0.7, and non-blank text. -/
def triggersGeneration (st : ConsumerState) (ev : TranscriptEvent) : Bool :=
  (ev.speechFinal ||
      (effectiveIsFinal st ev && decide ((7 : ℚ)/10 < ev.confidence))) &&
    !(pyStrip ev.text == [])

/-- The duplicate-final guard: current_transcript equals the text and a
response generation has already started. -/
def isDuplicateFinal (st : ConsumerState) (ev : TranscriptEvent) : Bool :=
  (st.currentTranscript == ev.text) && st.responseStarted

structure TranscriptOutcome where
  state : ConsumerState
  promoted : Bool
  generated : Bool
deriving DecidableEq, Repr

/-- One _process_transcript step.  When the trigger fires and the event
is not a duplicate final, _stop_audio_input clears is_receiving_audio and
_generate_response marks response_start_time. -/
def processTranscript (st : ConsumerState) (ev : TranscriptEvent) :
    TranscriptOutcome :=
  if triggersGeneration st ev &&
      !(isDuplicateFinal (afterTextUpdate st ev) ev) then
    { state := { afterTextUpdate st ev with
                   isReceivingAudio := false, responseStarted := true },
      promoted := promotesInterim st ev,
      generated := true }
  else
    { state := afterTextUpdate st ev,
      promoted := promotesInterim st ev, generated := false }

/-! ## Token-to-TTS flushing (_generate_response in
src/backend/core/agents/ws/optimized_streaming_consumer.py)

The token loop appends each LLM token to current_buffer and counts its
whitespace-separated words; it flushes the trimmed buffer to TTS when
the incoming token contains one of the characters '.', '!' and '?' (and
the buffer is non-blank), or else when the accumulated word count has
reached 20. -/

def sentenceTerminator (c : Char) : Bool :=
  c = '.' || c = '!' || c = '?'

def hasTerminator (s : List Char) : Bool := s.any sentenceTerminator

/-- Number of words of Python str.split(): maximal non-whitespace runs. -/
def countWordsAux : Bool → List Char → Nat
  | _, [] => 0
  | inWord, c :: rest =>
      if c.isWhitespace then countWordsAux false rest
      else (if inWord then 0 else 1) + countWordsAux true rest

def countWords (s : List Char) : Nat := countWordsAux false s

structure StreamBuf where
  buffer : List Char
  wordCount : Nat
deriving DecidableEq, Repr

structure FlushStep where
  buf : StreamBuf
  flushed : Option (List Char)
deriving DecidableEq, Repr

/-- word_count after the token has been counted
(if content.strip(): word_count += len(content.strip().split())). -/
def updatedWordCount (st : StreamBuf) (tok : List Char) : Nat :=
  if pyStrip tok == [] then st.wordCount
  else st.wordCount + countWords (pyStrip tok)

/-- One iteration of the token loop on one streamed token. -/
def streamStep (st : StreamBuf) (tok : List Char) : FlushStep :=
  if hasTerminator tok then
    if pyStrip (st.buffer ++ tok) == [] then
      { buf := ⟨st.buffer ++ tok, updatedWordCount st tok⟩, flushed := none }
    else
      { buf := ⟨[], 0⟩, flushed := some (pyStrip (st.buffer ++ tok)) }
  else if 20 ≤ updatedWordCount st tok then
    if pyStrip (st.buffer ++ tok) == [] then
      { buf := ⟨st.buffer ++ tok, 0⟩, flushed := none }
    else
      { buf := ⟨[], 0⟩, flushed := some (pyStrip (st.buffer ++ tok)) }
  else
    { buf := ⟨st.buffer ++ tok, updatedWordCount st tok⟩, flushed := none }

/-- The token loop over a whole token stream, collecting flushed chunks
in order. -/
def streamRun : StreamBuf → List (List Char) → StreamBuf × List (List Char)
  | st, [] => (st, [])
  | st, tok :: rest =>
      let r := streamStep st tok
      let next := streamRun r.buf rest
      (next.1, r.flushed.toList ++ next.2)

/-- The complete-event handler of _generate_response: full_response is
overwritten with the complete content; a non-blank remaining buffer is
flushed trimmed; otherwise, when no audio has been streamed yet, the
full response content is sent to _stream_text_chunk as is, which skips
it when blank. -/
def streamFinish (st : StreamBuf) (content : List Char)
    (firstAudioSent : Bool) : Option (List Char) :=
  if !(pyStrip st.buffer == []) then some (pyStrip st.buffer)
  else if !firstAudioSent then
    if pyStrip content == [] then none else some content
  else none

/-- The flush condition stated by the claim on the buffer: the buffer ends with a
sentence terminator possibly followed by whitespace. -/
def specEndsSentence (s : List Char) : Bool :=
  match s.reverse.dropWhile Char.isWhitespace with
  | [] => false
  | c :: _ => sentenceTerminator c

/-! ## Streaming TTS service
(src/backend/core/agents/services/streaming_tts_service.py)

generate_streaming splits the text into sentences, then for each
non-blank sentence invokes the provider inside a try/except: the chunks
the provider yields are forwarded tagged with the sentence index, and a
provider error for one sentence (raised after zero or more chunks) is
logged and the loop continues with the next sentence.  The provider is
modelled as the chunks each sentence call yields before returning or
raising, with a flag recording whether it raised. -/

structure SentenceResult where
  chunks : List (List Nat)
  /-- whether the provider raised after yielding the chunks; the
  except-and-continue makes this irrelevant to the output. -/
  errored : Bool

/-- The sentence loop of generate_streaming, from a starting enumerate
index: each yielded chunk is tagged with its sentence index. -/
def generateStreamingGo (provider : Nat → SentenceResult) :
    Nat → List (List Char) → List (Nat × List Nat)
  | _, [] => []
  | idx, s :: rest =>
      (if pyStrip s == [] then []
       else (provider idx).chunks.map (fun c => (idx, c)))
        ++ generateStreamingGo provider (idx + 1) rest

def generateStreaming (sentences : List (List Char))
    (provider : Nat → SentenceResult) : List (Nat × List Nat) :=
  generateStreamingGo provider 0 sentences

/-! ## Adaptive silence detection (src/jin_edge/audio/silence_detector.py
and src/jin_edge/control/streaming_wakeword.py)

The controller records the RMS energy of each pre-trigger chunk (a
sliding window of 2000 ms / chunk_duration_ms samples), and on wake word
sets the detector baseline to the mean of those samples;
set_baseline_energy then fixes the relative silence threshold at
baseline * relative_threshold_ratio (when positive), with the speech
threshold 1.2 times that.  process counts chunks whose RMS is below the
silence threshold, resets the count on chunks above the speech
threshold, leaves it unchanged in between, and emits speech_ended while
speaking once the count reaches
max(1, silence_duration_ms / chunk_duration_ms).  RMS values are
rationals standing for the floats computed by _calculate_rms. -/

inductive SpeechEvent
  | speechStarted
  | speechEnded
deriving DecidableEq, Repr

structure SilenceConfig where
  silenceThreshold : ℚ
  speechThreshold : ℚ
  silenceChunksNeeded : Nat
  useRelativeThreshold : Bool
  /-- relative_threshold_ratio in the source -/
  relativeFraction : ℚ
deriving DecidableEq, Repr

/-- silence_chunks_needed = max(1, int(silence_duration_ms /
chunk_duration_ms)). -/
def mkSilenceChunksNeeded (silenceDurationMs chunkDurationMs : Nat) : Nat :=
  max 1 (silenceDurationMs / chunkDurationMs)

structure DetectorState where
  isSpeaking : Bool
  silenceChunkCount : Nat
  speechChunkCount : Nat
  baselineEnergy : Option ℚ
  relativeSilenceThreshold : Option ℚ
deriving DecidableEq, Repr

/-- set_baseline_energy: store the baseline; in relative mode with a
positive baseline, fix the relative silence threshold. -/
def setBaselineEnergy (cfg : SilenceConfig) (st : DetectorState)
    (energy : ℚ) : DetectorState :=
  if cfg.useRelativeThreshold && decide (0 < energy) then
    { st with baselineEnergy := some energy,
              relativeSilenceThreshold :=
                some (energy * cfg.relativeFraction) }
  else { st with baselineEnergy := some energy }

/-- The (silence, speech) thresholds process uses: the relative pair when
relative mode is on and a relative threshold is set, else the absolute
pair. -/
def thresholdsOf (cfg : SilenceConfig) (st : DetectorState) : ℚ × ℚ :=
  match cfg.useRelativeThreshold, st.relativeSilenceThreshold with
  | true, some t => (t, t * (6/5 : ℚ))
  | _, _ => (cfg.silenceThreshold, cfg.speechThreshold)

/-- One process() call on the RMS of one chunk. -/
def processRms (cfg : SilenceConfig) (st : DetectorState) (rms : ℚ) :
    DetectorState × Option SpeechEvent :=
  if rms < (thresholdsOf cfg st).1 then
    if st.isSpeaking &&
        decide (cfg.silenceChunksNeeded ≤ st.silenceChunkCount + 1) then
      ({ st with silenceChunkCount := st.silenceChunkCount + 1,
                 speechChunkCount := 0, isSpeaking := false },
       some SpeechEvent.speechEnded)
    else
      ({ st with silenceChunkCount := st.silenceChunkCount + 1,
                 speechChunkCount := 0 }, none)
  else if (thresholdsOf cfg st).2 < rms then
    if !st.isSpeaking then
      ({ st with speechChunkCount := st.speechChunkCount + 1,
                 silenceChunkCount := 0, isSpeaking := true },
       some SpeechEvent.speechStarted)
    else
      ({ st with speechChunkCount := st.speechChunkCount + 1,
                 silenceChunkCount := 0 }, none)
  else (st, none)

/-- process() over a chunk-RMS trace, collecting the per-chunk events. -/
def runDetector (cfg : SilenceConfig) :
    DetectorState → List ℚ → DetectorState × List (Option SpeechEvent)
  | st, [] => (st, [])
  | st, r :: rest =>
      ((runDetector cfg (processRms cfg st r).1 rest).1,
       (processRms cfg st r).2 ::
         (runDetector cfg (processRms cfg st r).1 rest).2)

/-- Mean RMS of the recorded pre-trigger energy samples. -/
def meanRms (samples : List ℚ) : ℚ := samples.sum / (samples.length : ℚ)

/-- One _handle_listening_chunk energy bookkeeping step: append the
RMS of the chunk and keep only the most recent 2000 ms / chunk_duration_ms
samples (the roughly 2 second pre-trigger window). -/
def pushEnergySample (chunkDurationMs : Nat) (samples : List ℚ)
    (rms : ℚ) : List ℚ :=
  if 2000 / chunkDurationMs < (samples ++ [rms]).length
  then (samples ++ [rms]).drop 1 else samples ++ [rms]

/-- detector.reset(): clear the speaking flag and counters, keeping the
baseline. -/
def resetDetector (st : DetectorState) : DetectorState :=
  { st with isSpeaking := false, silenceChunkCount := 0,
            speechChunkCount := 0 }

/-- _start_streaming: set the baseline from the pre-trigger window mean
(in relative mode, with samples recorded) and reset the detector. -/
def startStreamingDetector (cfg : SilenceConfig) (st : DetectorState)
    (samples : List ℚ) : DetectorState :=
  resetDetector
    (if !samples.isEmpty && cfg.useRelativeThreshold then
      setBaselineEnergy cfg st (meanRms samples)
     else st)

/-- How the silence-chunk counter evolves on one RMS value: increment
below the silence threshold, reset to zero above the speech threshold,
unchanged in the intermediate band. -/
def stepSilenceCount (silT spT : ℚ) (c : Nat) (rms : ℚ) : Nat :=
  if rms < silT then c + 1 else if spT < rms then 0 else c

def foldSilenceCount (silT spT : ℚ) (c : Nat) (rs : List ℚ) : Nat :=
  rs.foldl (stepSilenceCount silT spT) c

/-- A concrete relative-mode configuration: silence window 60 ms of 30 ms
chunks (2 chunks), ratio 0.35. -/
def cfgMid : SilenceConfig :=
  ⟨500, 600, mkSilenceChunksNeeded 60 30, true, 7/20⟩

/-- The detector right after set_baseline_energy(1000) and reset:
relative silence threshold 1000 * 0.35 = 350 (speech threshold 420). -/
def stMid : DetectorState := ⟨false, 0, 0, some 1000, some 350⟩

/-! ## Outbound frame ordering
(src/backend/core/agents/ws/optimized_streaming_consumer.py and
src/backend/core/agents/ws/audio_streamer.py)

The consumer sends the cached welcome audio bracketed by its own
audio_start / audio_end pair on connect; afterwards _stream_text_chunk
lazily creates one AudioStreamer, sending audio_start before the first
binary chunk of the TTS stream of the connection and reusing the open stream
for later chunks (each call also appends a binary silence padding);
_handle_interrupt sends stop_playback (when a streamer exists) and drops
the streamer so the next response starts a fresh stream; disconnect
sends audio_end when a streamer is still streaming.  The boolean state
is whether an AudioStreamer exists and is streaming. -/

inductive Frame
  | ctrlAudioStart
  | ctrlAudioEnd
  | ctrlStopPlayback
  | ctrlOther
  | binary (payload : List Nat)
deriving DecidableEq, Repr

inductive SessionEvent
  | ttsChunk (text : List Char) (audio : List (List Nat))
  | interrupt
deriving DecidableEq, Repr

/-- Silence padding of 100 ms at 16 kHz 16-bit (3200 zero bytes) appended after the
TTS chunks of each _stream_text_chunk call. -/
def silencePadding : List Nat := List.replicate 3200 0

/-- Frames of _send_welcome_audio: nothing for an empty cache, otherwise
audio_start, the cached audio in slices, audio_end. -/
def welcomeFrames (chunks : List (List Nat)) : List Frame :=
  if chunks = [] then []
  else [Frame.ctrlAudioStart] ++ chunks.map Frame.binary ++
    [Frame.ctrlAudioEnd]

/-- Frames sent by one event given whether the streamer is open, and the
streamer state afterwards.  _stream_text_chunk skips blank text, sends
audio_start only when creating the streamer, skips empty chunks
(send_audio_chunk ignores them) and appends the silence padding;
_handle_interrupt sends stop_playback when a streamer exists plus an
interrupted notice, and clears the streamer. -/
def framesOfEvent (streamerOpen : Bool) :
    SessionEvent → List Frame × Bool
  | SessionEvent.ttsChunk text audio =>
      if pyStrip text == [] then ([], streamerOpen)
      else
        ((if streamerOpen then [] else [Frame.ctrlAudioStart]) ++
          (audio.filter (fun c => !c.isEmpty)).map Frame.binary ++
          [Frame.binary silencePadding], true)
  | SessionEvent.interrupt =>
      ((if streamerOpen then [Frame.ctrlStopPlayback] else []) ++
        [Frame.ctrlOther], false)

def framesOfEvents : Bool → List SessionEvent → List Frame × Bool
  | b, [] => ([], b)
  | b, e :: es =>
      ((framesOfEvent b e).1 ++
        (framesOfEvents (framesOfEvent b e).2 es).1,
       (framesOfEvents (framesOfEvent b e).2 es).2)

/-- disconnect: send audio_end iff a streamer is still streaming. -/
def disconnectFrames (streamerOpen : Bool) : List Frame :=
  if streamerOpen then [Frame.ctrlAudioEnd] else []

/-- All frames of one connection: welcome audio, the session events,
then the disconnect handler. -/
def sessionFrames (welcomeChunks : List (List Nat))
    (events : List SessionEvent) : List Frame :=
  welcomeFrames welcomeChunks ++ (framesOfEvents false events).1 ++
    disconnectFrames (framesOfEvents false events).2

/-- Left-to-right scan: isOpen tracks whether a stream_start is active
(no stream_end / stop_playback since), pending whether a binary frame
has been sent on the active stream and not yet closed; a binary frame
outside an open stream is a violation. -/
def scanFrames : Bool → Bool → List Frame → Option (Bool × Bool)
  | isOpen, pending, [] => some (isOpen, pending)
  | isOpen, pending, f :: rest =>
      match f with
      | Frame.binary _ =>
          if isOpen then scanFrames isOpen true rest else none
      | Frame.ctrlAudioStart => scanFrames true pending rest
      | Frame.ctrlAudioEnd => scanFrames false false rest
      | Frame.ctrlStopPlayback => scanFrames false false rest
      | Frame.ctrlOther => scanFrames isOpen pending rest

/-- Every binary frame lies inside an open stream (a stream_start
precedes it with no intervening stream_end or stop_playback), and every
binary frame is eventually followed by a stream_end or stop_playback
(none is left pending when the connection closes). -/
def framesWellBracketed (t : List Frame) : Bool :=
  match scanFrames false false t with
  | some (_, pending) => !pending
  | none => false

/-! ## Properties of the embedded components -/

lemma chunkAudioGo_spec (cs : Nat) (hcs : 0 < cs) :
    ∀ fuel audio, List.length audio ≤ fuel →
      ∃ chunks, chunkAudioGo cs fuel audio = some chunks ∧
        chunks.flatten = audio ∧
        (∀ c ∈ chunks.dropLast, c.length = cs) ∧
        (∀ c ∈ chunks, c.length ≤ cs) ∧
        (∀ c ∈ chunks, c ≠ []) := by
  intro fuel
  induction fuel with
  | zero =>
      intro audio haudio
      have : audio = [] := List.length_eq_zero.mp (Nat.le_zero.mp haudio)
      subst this
      exact ⟨[], rfl, rfl, by simp, by simp, by simp⟩
  | succ n ih =>
      intro audio haudio
      match audio with
      | [] => exact ⟨[], rfl, rfl, by simp, by simp, by simp⟩
      | x :: xs =>
          have hdrop : ((x :: xs).drop cs).length ≤ n := by
            rw [List.length_drop]
            have hlen : (x :: xs).length ≤ n + 1 := haudio
            omega
          obtain ⟨rest, hrest, hjoin, hdl, hle, hne⟩ := ih _ hdrop
          have htake_ne : (x :: xs).take cs ≠ [] := by
            obtain ⟨m, rfl⟩ := Nat.exists_eq_succ_of_ne_zero (Nat.pos_iff_ne_zero.mp hcs)
            simp [List.take_succ_cons]
          refine ⟨(x :: xs).take cs :: rest, ?_, ?_, ?_, ?_, ?_⟩
          · simp [chunkAudioGo, hrest]
          · simp [List.flatten, hjoin, List.take_append_drop]
          · intro c hc
            rcases rest with _ | ⟨r, rs⟩
            · simp at hc
            · rw [List.dropLast_cons₂] at hc
              rcases List.mem_cons.mp hc with hc | hc
              · subst hc
                have hrne : ((x :: xs).drop cs) ≠ [] := by
                  intro hnil
                  rw [← hjoin] at hnil
                  have : r ≠ [] := hne r (by simp)
                  simp [List.flatten] at hnil
                  exact this hnil.1
                have hlen : cs ≤ (x :: xs).length := by
                  by_contra hlt
                  push_neg at hlt
                  exact hrne (List.drop_eq_nil_of_le (Nat.le_of_lt hlt))
                have hxlen : (x :: xs).length = xs.length + 1 := rfl
                simp only [List.length_take]
                omega
              · exact hdl c hc
          · intro c hc
            rcases List.mem_cons.mp hc with hc | hc
            · subst hc
              exact List.length_take_le cs (x :: xs)
            · exact hle c hc
          · intro c hc
            rcases List.mem_cons.mp hc with hc | hc
            · subst hc; exact htake_ne
            · exact hne c hc

/-- C10 counterexample: with sample_rate = 1, chunk_duration_ms = 1 and
bytes_per_sample = 1 the computed chunk size is int(1*1/1000)*1 = 0, the
loop offset never advances, and chunk_audio on one byte of audio never
yields a finite sequence: the claim that it always yields a finite
sequence for positive parameters is false. -/
theorem chunkAudio_zero_chunk_size_diverges :
    chunkAudioDiverges [0] 1 1 1 := by
  intro fuel
  induction fuel with
  | zero => rfl
  | succ n ih =>
      have hcs : chunkSizeBytes 1 1 1 = 0 := rfl
      show chunkAudioGo (chunkSizeBytes 1 1 1) (n + 1) [0] = none
      rw [hcs]
      show (chunkAudioGo 0 n (([0] : List Nat).drop 0)).map
        (fun rest => ([0] : List Nat).take 0 :: rest) = none
      rw [List.drop_zero]
      rw [hcs] at ih
      rw [ih]
      rfl

/-- C10 amended: for every non-empty audio input and positive parameters
whose computed chunk size is positive (sample_rate * chunk_duration_ms at
least 1000), chunk_audio terminates and yields chunks whose concatenation
is the input, every chunk except possibly the last having exactly
chunk_size bytes (and none empty). -/
theorem chunkAudio_spec (audioBytes : List Nat)
    (sampleRate chunkDurationMs bytesPerSample : Nat)
    (hsr : 0 < sampleRate) (hcd : 0 < chunkDurationMs)
    (hbps : 0 < bytesPerSample)
    (hsc : 1000 ≤ sampleRate * chunkDurationMs) :
    ∃ chunks,
      chunkAudio audioBytes sampleRate chunkDurationMs bytesPerSample
          = some chunks ∧
      chunks.flatten = audioBytes ∧
      (∀ c ∈ chunks.dropLast,
        c.length = chunkSizeBytes sampleRate chunkDurationMs bytesPerSample) ∧
      (∀ c ∈ chunks,
        c.length ≤ chunkSizeBytes sampleRate chunkDurationMs bytesPerSample) ∧
      (∀ c ∈ chunks, c ≠ []) := by
  have hspc : 0 < samplesPerChunk sampleRate chunkDurationMs := by
    have := Nat.div_le_div_right (c := 1000) hsc
    simpa [samplesPerChunk] using Nat.lt_of_lt_of_le (by norm_num) this
  have hcs : 0 < chunkSizeBytes sampleRate chunkDurationMs bytesPerSample :=
    Nat.mul_pos hspc hbps
  exact chunkAudioGo_spec _ hcs audioBytes.length audioBytes (Nat.le_refl _)

/-- Witness for the amended C10 theorem at concrete parameters 16 kHz,
20 ms, 2 bytes per sample on a three-byte input. -/
theorem chunkAudio_spec_witness :
    ∃ chunks,
      chunkAudio [1, 2, 3] 16000 20 2 = some chunks ∧
      chunks.flatten = [1, 2, 3] ∧
      (∀ c ∈ chunks.dropLast, c.length = chunkSizeBytes 16000 20 2) ∧
      (∀ c ∈ chunks, c.length ≤ chunkSizeBytes 16000 20 2) ∧
      (∀ c ∈ chunks, c ≠ []) :=
  chunkAudio_spec [1, 2, 3] 16000 20 2 (by norm_num) (by norm_num)
    (by norm_num) (by norm_num)

/-- C3 counterexample: feeding [3, 3] to the full player returns False,
but the buffer is left completely unchanged: the oldest chunk [1, 1] is
still there and the new chunk was not retained, contradicting the claimed
drop-oldest behaviour (which would leave [[2, 2], [3, 3]]). -/
theorem feed_full_keeps_oldest :
    (fullPlayer.feed [3, 3]).2 = false ∧
    (fullPlayer.feed [3, 3]).1.buffer.chunks = [[1, 1], [2, 2]] ∧
    ([[1, 1], [2, 2]] : List (List Nat)) ≠ [[2, 2], [3, 3]] := by
  refine ⟨rfl, rfl, by decide⟩

/-- C3 amended: during an active session, feeding a non-empty aligned
chunk appends it to the jitter buffer and returns True when it fits under
the size cap; when the chunk would overflow the cap, feed returns False
and the buffer is unchanged (the new chunk is discarded, the buffered
chunks, oldest included, are all kept). -/
theorem feed_spec (p : AudioPlayer) (pcmBytes : List Nat)
    (hactive : p.sessionActive = true) (hne : pcmBytes ≠ [])
    (haligned : pcmBytes.length % 2 = 0) :
    (p.buffer.maxSize < p.buffer.currentSize + pcmBytes.length →
      p.feed pcmBytes = (p, false)) ∧
    (p.buffer.currentSize + pcmBytes.length ≤ p.buffer.maxSize →
      (p.feed pcmBytes).1.buffer.chunks = p.buffer.chunks ++ [pcmBytes] ∧
      (p.feed pcmBytes).2 = true) := by
  obtain ⟨sa, buf⟩ := p
  subst hactive
  constructor
  · intro hover
    simp [AudioPlayer.feed, hne, haligned, AudioBuffer.push, hover]
  · intro hfits
    have hnotover : ¬ buf.maxSize < buf.currentSize + pcmBytes.length :=
      Nat.not_lt.mpr hfits
    simp [AudioPlayer.feed, hne, haligned, AudioBuffer.push, hnotover]

/-- Witness for the amended C3 theorem: both the overflow branch (on the
full player) and the accepting branch (on an emptier player) at concrete
chunks. -/
theorem feed_spec_witness :
    (fullPlayer.buffer.maxSize <
        fullPlayer.buffer.currentSize + ([3, 3] : List Nat).length →
      fullPlayer.feed [3, 3] = (fullPlayer, false)) ∧
    (fullPlayer.buffer.currentSize + ([3, 3] : List Nat).length ≤
        fullPlayer.buffer.maxSize →
      (fullPlayer.feed [3, 3]).1.buffer.chunks =
        fullPlayer.buffer.chunks ++ [[3, 3]] ∧
      (fullPlayer.feed [3, 3]).2 = true) :=
  feed_spec fullPlayer [3, 3] rfl (by decide) (by decide)

lemma playingWrites_false_snd (l : List (List Nat)) :
    (playingWrites false l).map Prod.snd =
      List.replicate l.length Fade.plain := by
  induction l with
  | nil => rfl
  | cons c rest ih => simp [playingWrites, ih, List.replicate_succ]

lemma drainWrites_snd (c : List Nat) (l : List (List Nat)) :
    (drainWrites (c :: l)).map Prod.snd =
      List.replicate l.length Fade.plain ++ [Fade.fadeOut] := by
  induction l generalizing c with
  | nil => rfl
  | cons c2 rest ih =>
      simp [drainWrites, ih c2, List.replicate_succ]

/-- C4 counterexample: a session in which the playback loop delivered one
chunk and the jitter buffer was already empty when the session ended.
The single written chunk got the fade-in but no chunk got a fade-out, so
a chunk was written before the idle transition without fade-out applied
to the last one, contradicting the claim. -/
theorem sessionWrites_no_fadeout :
    sessionWrites [[5, 5]] [] = [([5, 5], Fade.fadeIn)] ∧
    (∀ w ∈ sessionWrites [[5, 5]] [], w.2 ≠ Fade.fadeOut) ∧
    sessionWrites [[5, 5]] [] ≠ [] := by
  refine ⟨rfl, ?_, by decide⟩
  intro w hw
  simp [sessionWrites, playingWrites, drainWrites] at hw
  subst hw
  decide

/-- C4 amended: in every playback session the fade annotations are, in
order: one fade-in on the first chunk exactly when the playing loop
delivered at least one chunk, then plain chunks, then one fade-out on the
final chunk exactly when the jitter buffer still held chunks when the
drain began (so at most one fade-in and at most one fade-out per session,
on the first and last written chunks, and no other chunk is ever
fade-shaped). -/
theorem sessionWrites_fade_shape (played residual : List (List Nat)) :
    (sessionWrites played residual).map Prod.snd =
      (if played = [] then []
       else Fade.fadeIn :: List.replicate (played.length - 1) Fade.plain) ++
      (if residual = [] then []
       else List.replicate (residual.length - 1) Fade.plain ++ [Fade.fadeOut]) := by
  rcases played with _ | ⟨c, rest⟩
  · rcases residual with _ | ⟨d, rs⟩
    · rfl
    · simp [sessionWrites, playingWrites, drainWrites_snd]
  · rcases residual with _ | ⟨d, rs⟩
    · simp [sessionWrites, playingWrites, drainWrites, playingWrites_false_snd]
    · simp [sessionWrites, playingWrites, drainWrites_snd, playingWrites_false_snd]

lemma pyStrip_eq_nil_iff (s : List Char) :
    pyStrip s = [] ↔ ∀ c ∈ s, c.isWhitespace := by
  unfold pyStrip
  rw [List.reverse_eq_nil_iff, List.dropWhile_eq_nil_iff]
  constructor
  · intro h c hc
    rcases List.mem_append.mp
        ((List.takeWhile_append_dropWhile (p := Char.isWhitespace)
          (l := s)) ▸ hc) with hmem | hmem
    · exact List.mem_takeWhile_imp hmem
    · exact h c (List.mem_reverse.mpr hmem)
  · intro h c hc
    exact h c ((List.dropWhile_suffix Char.isWhitespace).subset
      (List.mem_reverse.mp hc))

lemma pyStrip_ne_nil_of_mem (s : List Char) (c : Char) (hc : c ∈ s)
    (hw : ¬ c.isWhitespace) : pyStrip s ≠ [] := by
  intro h
  exact hw (pyStrip_eq_nil_iff s |>.mp h c hc)

lemma processTranscript_generated_state (st : ConsumerState)
    (ev : TranscriptEvent)
    (h : (processTranscript st ev).generated = true) :
    (processTranscript st ev).state.responseStarted = true ∧
    (processTranscript st ev).state.currentTranscript =
      (afterTextUpdate st ev).currentTranscript := by
  unfold processTranscript at *
  split at h
  · next hc => constructor <;> simp [hc]
  · simp at h

lemma processTranscript_promoted (st : ConsumerState) (ev : TranscriptEvent) :
    (processTranscript st ev).promoted = promotesInterim st ev := by
  unfold processTranscript
  split <;> rfl

lemma afterTextUpdate_responseStarted (st : ConsumerState)
    (ev : TranscriptEvent) :
    (afterTextUpdate st ev).responseStarted = st.responseStarted := by
  unfold afterTextUpdate
  split
  · rfl
  · split <;> rfl

/-- C2: two consecutive final transcripts with the same text never start
two generations: if the first started one, the duplicate-final guard
(current_transcript equal to the text together with the recorded
response start) suppresses the second. -/
theorem duplicate_final_generates_once (st : ConsumerState) (t : List Char)
    (sf1 sf2 : Bool) (c1 c2 : ℚ)
    (h1 : (processTranscript st ⟨t, true, sf1, c1⟩).generated = true) :
    (processTranscript (processTranscript st ⟨t, true, sf1, c1⟩).state
      ⟨t, true, sf2, c2⟩).generated = false := by
  obtain ⟨hrs, hct⟩ := processTranscript_generated_state st ⟨t, true, sf1, c1⟩ h1
  set st1 := (processTranscript st ⟨t, true, sf1, c1⟩).state with hst1
  have hdup : isDuplicateFinal (afterTextUpdate st1 ⟨t, true, sf2, c2⟩)
      ⟨t, true, sf2, c2⟩ = true := by
    simp [isDuplicateFinal, afterTextUpdate, hrs]
  unfold processTranscript
  simp [hdup]

/-- Witness for C2: a confident final transcript generates once, the
identical final right after it does not. -/
theorem duplicate_final_generates_once_witness :
    ((processTranscript ⟨true, [], [], false⟩
        ⟨("hi").toList, true, true, 1⟩).generated = true) ∧
    (processTranscript (processTranscript ⟨true, [], [], false⟩
        ⟨("hi").toList, true, true, 1⟩).state
      ⟨("hi").toList, true, true, 1⟩).generated = false :=
  ⟨by simp [processTranscript, triggersGeneration, isDuplicateFinal,
      afterTextUpdate, promotesInterim, effectiveIsFinal, pyStrip],
   duplicate_final_generates_once ⟨true, [], [], false⟩ (("hi").toList)
     true true 1 1
     (by simp [processTranscript, triggersGeneration, isDuplicateFinal,
       afterTextUpdate, promotesInterim, effectiveIsFinal, pyStrip])⟩

/-- C6 counterexample: after stop_audio_input, an interim transcript with
confidence exactly 0.95 is not promoted to final and starts no
generation, because the code requires confidence strictly greater than
0.95; the claim says at least 0.95 suffices. -/
theorem interim_at_exactly_095_not_promoted :
    (processTranscript
      ⟨false, [], [], false⟩
      ⟨("hello there").toList, false, false, (95 : ℚ)/100⟩).promoted
        = false ∧
    (processTranscript
      ⟨false, [], [], false⟩
      ⟨("hello there").toList, false, false, (95 : ℚ)/100⟩).generated
        = false := by
  constructor <;>
    simp [processTranscript, promotesInterim, triggersGeneration,
      effectiveIsFinal, isDuplicateFinal, afterTextUpdate]

/-- C6 amended: after the edge signalled stop_audio_input, a non-empty
interim transcript is promoted to final exactly when its confidence is
strictly greater than 0.95 (an interim at exactly 0.95, or with audio
input still active, or blank, is not promoted), and a promoted interim
proceeds to response generation provided no generation has been started
earlier in the connection. -/
theorem interim_promotion_spec (st : ConsumerState) (ev : TranscriptEvent)
    (hint : ev.isFinal = false) :
    ((processTranscript st ev).promoted = true ↔
      (st.isReceivingAudio = false ∧ (95 : ℚ)/100 < ev.confidence ∧
        pyStrip ev.text ≠ [])) ∧
    ((processTranscript st ev).promoted = true → st.responseStarted = false →
      (processTranscript st ev).generated = true) := by
  constructor
  · rw [processTranscript_promoted]
    simp [promotesInterim, hint, and_assoc]
  · intro hprom hrs
    rw [processTranscript_promoted] at hprom
    have hcomp := hprom
    simp [promotesInterim, hint, and_assoc] at hcomp
    obtain ⟨hrecv, hconf, htrim⟩ := hcomp
    have h710 : (7 : ℚ)/10 < ev.confidence :=
      lt_trans (by norm_num) hconf
    have htrig : triggersGeneration st ev = true := by
      simp [triggersGeneration, effectiveIsFinal, hprom, htrim, h710]
    have hdup : isDuplicateFinal (afterTextUpdate st ev) ev = false := by
      simp [isDuplicateFinal, afterTextUpdate_responseStarted, hrs]
    unfold processTranscript
    simp [htrig, hdup]

/-- Witness for the amended C6 theorem: a concrete interim at confidence
0.96 after audio stopped is promoted and generates. -/
theorem interim_promotion_spec_witness :
    (((processTranscript ⟨false, [], [], false⟩
        ⟨("turn on the lights").toList, false, false,
          (96 : ℚ)/100⟩).promoted = true ↔
      ((⟨false, [], [], false⟩ : ConsumerState).isReceivingAudio = false ∧
        (95 : ℚ)/100 < (96 : ℚ)/100 ∧
        pyStrip (("turn on the lights").toList) ≠ [])) ∧
     ((processTranscript ⟨false, [], [], false⟩
        ⟨("turn on the lights").toList, false, false,
          (96 : ℚ)/100⟩).promoted = true →
      (⟨false, [], [], false⟩ : ConsumerState).responseStarted = false →
      (processTranscript ⟨false, [], [], false⟩
        ⟨("turn on the lights").toList, false, false,
          (96 : ℚ)/100⟩).generated = true)) :=
  interim_promotion_spec ⟨false, [], [], false⟩
    ⟨("turn on the lights").toList, false, false, (96 : ℚ)/100⟩ rfl

/-- C9: a final transcript whose text is blank after trimming never
triggers response generation and leaves the generation and
audio-input state untouched (the session stays out of the generating and
speaking states, i.e. idle with respect to this event). -/
theorem empty_final_no_generation (st : ConsumerState) (ev : TranscriptEvent)
    (hfin : ev.isFinal = true) (hempty : pyStrip ev.text = []) :
    (processTranscript st ev).generated = false ∧
    (processTranscript st ev).state.responseStarted = st.responseStarted ∧
    (processTranscript st ev).state.isReceivingAudio = st.isReceivingAudio := by
  have htrig : triggersGeneration st ev = false := by
    simp [triggersGeneration, hempty]
  unfold processTranscript
  simp [htrig, afterTextUpdate, hfin]

/-- Witness for C9: a whitespace-only final transcript on a live session
generates nothing. -/
theorem empty_final_no_generation_witness :
    (processTranscript ⟨true, [], [], false⟩
      ⟨("   ").toList, true, false, (99 : ℚ)/100⟩).generated = false ∧
    (processTranscript ⟨true, [], [], false⟩
      ⟨("   ").toList, true, false, (99 : ℚ)/100⟩).state.responseStarted =
      (⟨true, [], [], false⟩ : ConsumerState).responseStarted ∧
    (processTranscript ⟨true, [], [], false⟩
      ⟨("   ").toList, true, false, (99 : ℚ)/100⟩).state.isReceivingAudio =
      (⟨true, [], [], false⟩ : ConsumerState).isReceivingAudio :=
  empty_final_no_generation ⟨true, [], [], false⟩
    ⟨("   ").toList, true, false, (99 : ℚ)/100⟩ rfl (by decide)

lemma pyStrip_append_left (a b : List Char) (h : pyStrip a ≠ []) :
    pyStrip (a ++ b) ≠ [] := by
  intro hx
  apply h
  rw [pyStrip_eq_nil_iff] at hx ⊢
  intro c hc
  exact hx c (List.mem_append_left b hc)

lemma pyStrip_append_right (a b : List Char) (h : pyStrip b ≠ []) :
    pyStrip (a ++ b) ≠ [] := by
  intro hx
  apply h
  rw [pyStrip_eq_nil_iff] at hx ⊢
  intro c hc
  exact hx c (List.mem_append_right a hc)

lemma hasTerminator_nonblank (a tok : List Char)
    (h : hasTerminator tok = true) : pyStrip (a ++ tok) ≠ [] := by
  obtain ⟨c, hc, hterm⟩ := List.any_eq_true.mp h
  apply pyStrip_ne_nil_of_mem _ c (List.mem_append_right a hc)
  rcases Bool.or_eq_true _ _ |>.mp hterm with h1 | h1
  · rcases Bool.or_eq_true _ _ |>.mp h1 with h2 | h2
    · rw [decide_eq_true_eq] at h2; subst h2; decide
    · rw [decide_eq_true_eq] at h2; subst h2; decide
  · rw [decide_eq_true_eq] at h1; subst h1; decide

/-- C5 counterexample: on the token stream consisting of
"The answer is 3" followed by ".5 exactly", the loop flushes the buffer
"The answer is 3.5 exactly" to TTS (the second token contains a dot),
although the buffer does not end with a sentence terminator and only 5
words have accumulated, contradicting the claimed flush condition. -/
theorem flush_without_sentence_end :
    (streamRun ⟨[], 0⟩
      [("The answer is 3").toList, (".5 exactly").toList]).2 =
      [("The answer is 3.5 exactly").toList] ∧
    specEndsSentence
      (("The answer is 3").toList ++ (".5 exactly").toList) = false ∧
    countWords
      (("The answer is 3").toList ++ (".5 exactly").toList) < 20 := by
  refine ⟨by decide, by decide, by decide⟩

lemma dropWhile_head_not (p : Char → Bool) :
    ∀ (l : List Char) (x : Char) (xs : List Char),
      l.dropWhile p = x :: xs → p x = false := by
  intro l
  induction l with
  | nil => intro x xs h; simp at h
  | cons a t ih =>
      intro x xs h
      by_cases hpa : p a = true
      · rw [List.dropWhile_cons, if_pos hpa] at h
        exact ih x xs h
      · rw [List.dropWhile_cons, if_neg hpa] at h
        injection h with h1 _
        subst h1
        simpa using hpa

lemma pyStrip_pyStrip_ne_nil (b : List Char) (h : pyStrip b ≠ []) :
    pyStrip (pyStrip b) ≠ [] := by
  rcases hcons : (b.dropWhile Char.isWhitespace).reverse.dropWhile
      Char.isWhitespace with _ | ⟨x, xs⟩
  · exact absurd (by unfold pyStrip; rw [hcons]; rfl) h
  · have hws : Char.isWhitespace x = false :=
      dropWhile_head_not Char.isWhitespace _ x xs hcons
    have hmem : x ∈ pyStrip b := by
      unfold pyStrip
      rw [hcons]
      exact List.mem_reverse.mpr (by simp)
    exact pyStrip_ne_nil_of_mem (pyStrip b) x hmem (by simp [hws])

/-- C5 amended: a step of the token loop flushes exactly when the
incoming token contains a sentence terminator anywhere (in which case the
buffer, which then contains that character, is non-blank), or else when
the updated word count has reached 20; what a token step flushes is
always the whitespace-trimmed buffer including the token, and is never
empty.  On stream completion a non-blank remaining buffer is always
flushed trimmed; every completion flush is non-blank; and the completion
flushes nothing only when the remainder is blank and, in addition, audio
was already streamed or the complete response content is blank (the
fallback that sends the full response when nothing was streamed).  The
hypothesis is the loop invariant that a non-zero word count means a
non-blank buffer (it holds of the initial empty state). -/
theorem stream_flush_spec (st : StreamBuf) (tok content : List Char)
    (firstAudioSent : Bool)
    (hinv : st.wordCount ≠ 0 → pyStrip st.buffer ≠ []) :
    ((streamStep st tok).flushed.isSome = true ↔
      (hasTerminator tok = true ∨ 20 ≤ updatedWordCount st tok)) ∧
    (∀ f, (streamStep st tok).flushed = some f →
      f = pyStrip (st.buffer ++ tok) ∧ f ≠ []) ∧
    (pyStrip st.buffer ≠ [] →
      streamFinish st content firstAudioSent = some (pyStrip st.buffer)) ∧
    (∀ f, streamFinish st content firstAudioSent = some f →
      pyStrip f ≠ []) ∧
    (streamFinish st content firstAudioSent = none →
      pyStrip st.buffer = [] ∧
        (firstAudioSent = true ∨ pyStrip content = [])) := by
  have hmain :
      ((streamStep st tok).flushed.isSome = true ↔
        (hasTerminator tok = true ∨ 20 ≤ updatedWordCount st tok)) ∧
      (∀ f, (streamStep st tok).flushed = some f →
        f = pyStrip (st.buffer ++ tok) ∧ f ≠ []) := by
    by_cases hterm : hasTerminator tok = true
    · have hnb : pyStrip (st.buffer ++ tok) ≠ [] :=
        hasTerminator_nonblank st.buffer tok hterm
      have hbeq : (pyStrip (st.buffer ++ tok) == []) = false := by
        simpa using hnb
      constructor
      · simp [streamStep, hterm, hbeq]
      · intro f hf
        simp [streamStep, hterm, hbeq] at hf
        subst hf
        exact ⟨rfl, hnb⟩
    · rw [Bool.not_eq_true] at hterm
      by_cases hwc : 20 ≤ updatedWordCount st tok
      · have hnb : pyStrip (st.buffer ++ tok) ≠ [] := by
          by_cases htok : pyStrip tok == []
          · have hwcx : st.wordCount ≠ 0 := by
              unfold updatedWordCount at hwc
              rw [if_pos htok] at hwc
              omega
            exact pyStrip_append_left _ _ (hinv hwcx)
          · have : pyStrip tok ≠ [] := by simpa using htok
            exact pyStrip_append_right _ _ this
        have hbeq : (pyStrip (st.buffer ++ tok) == []) = false := by
          simpa using hnb
        constructor
        · simp [streamStep, hterm, hwc, hbeq]
        · intro f hf
          simp [streamStep, hterm, hwc, hbeq] at hf
          subst hf
          exact ⟨rfl, hnb⟩
      · constructor
        · simp [streamStep, hterm, hwc]
        · intro f hf
          simp [streamStep, hterm, hwc] at hf
  refine ⟨hmain.1, hmain.2, ?_, ?_, ?_⟩
  · intro h
    have hbeq : (pyStrip st.buffer == []) = false := by simpa using h
    simp [streamFinish, hbeq]
  · intro f hf
    unfold streamFinish at hf
    by_cases hb : (pyStrip st.buffer == []) = true
    · rw [hb] at hf
      simp only [Bool.not_true, Bool.false_eq_true, if_false] at hf
      by_cases hfa : firstAudioSent = true
      · rw [hfa] at hf
        simp at hf
      · rw [Bool.not_eq_true] at hfa
        rw [hfa] at hf
        simp only [Bool.not_false, if_true] at hf
        by_cases hc : (pyStrip content == []) = true
        · rw [if_pos hc] at hf
          simp at hf
        · rw [if_neg hc] at hf
          have := Option.some.inj hf
          subst this
          simpa using hc
    · rw [Bool.not_eq_true] at hb
      rw [hb] at hf
      simp only [Bool.not_false, if_true] at hf
      have := Option.some.inj hf
      subst this
      exact pyStrip_pyStrip_ne_nil st.buffer (by simpa using hb)
  · intro h
    unfold streamFinish at h
    by_cases hb : (pyStrip st.buffer == []) = true
    · refine ⟨by simpa using hb, ?_⟩
      rw [hb] at h
      simp only [Bool.not_true, Bool.false_eq_true, if_false] at h
      by_cases hfa : firstAudioSent = true
      · exact Or.inl hfa
      · rw [Bool.not_eq_true] at hfa
        rw [hfa] at h
        simp only [Bool.not_false, if_true] at h
        by_cases hc : (pyStrip content == []) = true
        · exact Or.inr (by simpa using hc)
        · rw [if_neg hc] at h
          simp at h
    · rw [Bool.not_eq_true] at hb
      rw [hb] at h
      simp at h

/-- Witness for the amended C5 theorem at the initial empty buffer, a
token carrying a terminator, a non-blank complete content and no audio
sent yet. -/
theorem stream_flush_spec_witness :
    (((streamStep ⟨[], 0⟩ (("Hello world.").toList)).flushed.isSome = true ↔
      (hasTerminator (("Hello world.").toList) = true ∨
        20 ≤ updatedWordCount ⟨[], 0⟩ (("Hello world.").toList))) ∧
     (∀ f, (streamStep ⟨[], 0⟩ (("Hello world.").toList)).flushed = some f →
      f = pyStrip (([] : List Char) ++ ("Hello world.").toList) ∧
      f ≠ []) ∧
     (pyStrip ([] : List Char) ≠ [] →
      streamFinish ⟨[], 0⟩ (("Fallback answer").toList) false =
        some (pyStrip ([] : List Char))) ∧
     (∀ f, streamFinish ⟨[], 0⟩ (("Fallback answer").toList) false = some f →
      pyStrip f ≠ []) ∧
     (streamFinish ⟨[], 0⟩ (("Fallback answer").toList) false = none →
      pyStrip ([] : List Char) = [] ∧
        (false = true ∨ pyStrip (("Fallback answer").toList) = []))) :=
  stream_flush_spec ⟨[], 0⟩ (("Hello world.").toList)
    (("Fallback answer").toList) false (fun h => absurd rfl h)

lemma generateStreamingGo_fst_ge (provider : Nat → SentenceResult) :
    ∀ sentences i p, p ∈ generateStreamingGo provider i sentences → i ≤ p.1 := by
  intro sentences
  induction sentences with
  | nil => intro i p hp; simp [generateStreamingGo] at hp
  | cons s rest ih =>
      intro i p hp
      rcases List.mem_append.mp hp with hp | hp
      · split at hp
        · simp at hp
        · obtain ⟨c, _, hc⟩ := List.mem_map.mp hp
          subst hc
          exact Nat.le_refl i
      · exact Nat.le_of_succ_le (ih (i + 1) p hp)

lemma generateStreamingGo_filter_gt (provider : Nat → SentenceResult)
    (sentences : List (List Char)) (i j : Nat) (hij : j < i) :
    (generateStreamingGo provider i sentences).filter
      (fun p => p.1 == j) = [] := by
  rw [List.filter_eq_nil]
  intro p hp
  have := generateStreamingGo_fst_ge provider sentences i p hp
  simp only [beq_iff_eq]
  omega

lemma generateStreamingGo_filter (provider : Nat → SentenceResult) :
    ∀ (sentences : List (List Char)) (i j : Nat) (sj : List Char), i ≤ j →
      sentences.get? (j - i) = some sj → pyStrip sj ≠ [] →
      ((generateStreamingGo provider i sentences).filter
        (fun p => p.1 == j)).map Prod.snd = (provider j).chunks := by
  intro sentences
  induction sentences with
  | nil =>
      intro i j sj _ hget
      simp at hget
  | cons s rest ih =>
      intro i j sj hij hget hnb
      rcases Nat.eq_or_lt_of_le hij with heq | hlt
      · subst heq
        have h0 : i - i = 0 := Nat.sub_self i
        rw [h0] at hget
        have hs : s = sj := by simpa using hget
        subst hs
        have hbeq : (pyStrip s == []) = false := by simpa using hnb
        rw [generateStreamingGo, List.filter_append]
        rw [if_neg (by simp [hbeq])]
        rw [generateStreamingGo_filter_gt provider rest (i + 1) i
          (Nat.lt_succ_self i)]
        simp [List.filter_map, List.map_map, Function.comp]
      · rw [generateStreamingGo, List.filter_append]
        have hpart :
            ((if pyStrip s == [] then ([] : List (Nat × List Nat))
              else (provider i).chunks.map (fun c => (i, c))).filter
                (fun p => p.1 == j)) = [] := by
          split
          · simp
          · rw [List.filter_eq_nil_iff]
            intro p hp
            obtain ⟨c, _, hc⟩ := List.mem_map.mp hp
            subst hc
            simp only [beq_iff_eq]
            omega
        rw [hpart, List.nil_append]
        apply ih (i + 1) j sj (by omega) ?_ hnb
        have hji : j - i = (j - (i + 1)) + 1 := by omega
        rw [hji] at hget
        simpa using hget

lemma generateStreamingGo_pairwise (provider : Nat → SentenceResult) :
    ∀ (sentences : List (List Char)) (i : Nat),
      ((generateStreamingGo provider i sentences).map
        Prod.fst).Pairwise (· ≤ ·) := by
  intro sentences
  induction sentences with
  | nil => intro i; simp [generateStreamingGo]
  | cons s rest ih =>
      intro i
      rw [generateStreamingGo, List.map_append, List.pairwise_append]
      refine ⟨?_, ih (i + 1), ?_⟩
      · split
        · simp
        · rw [List.map_map]
          have : (Prod.fst ∘ fun c : List Nat => (i, c)) =
              Function.const (List Nat) i := rfl
          rw [this, List.map_const]
          exact List.pairwise_replicate.mpr (Or.inr (Nat.le_refl i))
      · intro a ha b hb
        have hai : a = i := by
          rcases List.mem_map.mp (by
            revert ha
            split
            · intro ha; simp at ha
            · intro ha; exact ha) with ⟨p, hp, hpa⟩
          obtain ⟨c, _, hc⟩ := List.mem_map.mp hp
          subst hc
          exact hpa.symm
        obtain ⟨p, hp, hpb⟩ := List.mem_map.mp hb
        have := generateStreamingGo_fst_ge provider rest (i + 1) p hp
        omega

/-- C7: a provider error while synthesising one sentence (modelled as
that sentence call yielding some or no chunks and then raising) never
affects the other sentences: the chunks of every non-blank sentence appear in
the output exactly and in order, and the sentence indices of the output
are non-decreasing, so the audio of the surviving sentences is yielded
in sentence order. -/
theorem tts_sentence_isolation (sentences : List (List Char))
    (provider : Nat → SentenceResult) (j : Nat) (sj : List Char)
    (hj : sentences.get? j = some sj) (hnb : pyStrip sj ≠ []) :
    ((generateStreaming sentences provider).filter
        (fun p => p.1 == j)).map Prod.snd = (provider j).chunks ∧
    ((generateStreaming sentences provider).map
        Prod.fst).Pairwise (· ≤ ·) := by
  constructor
  · apply generateStreamingGo_filter provider sentences 0 j sj (Nat.zero_le j)
      ?_ hnb
    simpa using hj
  · exact generateStreamingGo_pairwise provider sentences 0

/-- Witness for C7: sentence 0 errors with no chunks, sentence 1 still
streams its two chunks, in order. -/
theorem tts_sentence_isolation_witness :
    ((generateStreaming [("Hello.").toList, ("World.").toList]
        (fun n => if n = 0 then ⟨[], true⟩ else ⟨[[1], [2]], false⟩)).filter
        (fun p => p.1 == 1)).map Prod.snd =
      ((fun n => if n = 0 then (⟨[], true⟩ : SentenceResult)
          else ⟨[[1], [2]], false⟩) 1).chunks ∧
    ((generateStreaming [("Hello.").toList, ("World.").toList]
        (fun n => if n = 0 then (⟨[], true⟩ : SentenceResult)
          else ⟨[[1], [2]], false⟩)).map
        Prod.fst).Pairwise (· ≤ ·) :=
  tts_sentence_isolation [("Hello.").toList, ("World.").toList]
    (fun n => if n = 0 then ⟨[], true⟩ else ⟨[[1], [2]], false⟩)
    1 (("World.").toList) (by decide) (by decide)

lemma processRms_relThreshold (cfg : SilenceConfig) (st : DetectorState)
    (rms : ℚ) :
    (processRms cfg st rms).1.relativeSilenceThreshold =
      st.relativeSilenceThreshold := by
  unfold processRms
  split
  · split <;> rfl
  · split
    · split <;> rfl
    · rfl

lemma processRms_silenceCount (cfg : SilenceConfig) (st : DetectorState)
    (rms : ℚ) :
    (processRms cfg st rms).1.silenceChunkCount =
      stepSilenceCount (thresholdsOf cfg st).1 (thresholdsOf cfg st).2
        st.silenceChunkCount rms := by
  unfold processRms stepSilenceCount
  split
  · split <;> rfl
  · split
    · split <;> rfl
    · rfl

lemma processRms_ended (cfg : SilenceConfig) (st : DetectorState) (rms : ℚ)
    (h : (processRms cfg st rms).2 = some SpeechEvent.speechEnded) :
    rms < (thresholdsOf cfg st).1 ∧
    cfg.silenceChunksNeeded ≤ st.silenceChunkCount + 1 := by
  unfold processRms at h
  split at h
  · split at h
    · next hcond =>
        rcases Bool.and_eq_true _ _ |>.mp hcond with ⟨_, hc⟩
        exact ⟨by assumption, by simpa using hc⟩
    · simp at h
  · split at h
    · split at h <;> simp at h
    · simp at h

lemma runDetector_ended_count (cfg : SilenceConfig) (T : ℚ)
    (hrel : cfg.useRelativeThreshold = true) :
    ∀ (rs : List ℚ) (st : DetectorState) (k : Nat),
      st.relativeSilenceThreshold = some T →
      (runDetector cfg st rs).2.get? k = some (some SpeechEvent.speechEnded) →
      ∃ r, rs.get? k = some r ∧ r < T ∧
        cfg.silenceChunksNeeded ≤
          foldSilenceCount T (T * (6/5 : ℚ)) st.silenceChunkCount
            (rs.take (k + 1)) := by
  intro rs
  induction rs with
  | nil =>
      intro st k _ hev
      simp [runDetector] at hev
  | cons r rest ih =>
      intro st k hT hev
      have hthr : thresholdsOf cfg st = (T, T * (6/5 : ℚ)) := by
        unfold thresholdsOf
        rw [hrel, hT]
      match k with
      | 0 =>
          have hstep : (processRms cfg st r).2 =
              some SpeechEvent.speechEnded := by
            have : (runDetector cfg st (r :: rest)).2.get? 0 =
                some (processRms cfg st r).2 := rfl
            rw [this] at hev
            exact Option.some.inj hev
          obtain ⟨hlt, hcnt⟩ := processRms_ended cfg st r hstep
          rw [hthr] at hlt
          refine ⟨r, rfl, hlt, ?_⟩
          have : foldSilenceCount T (T * (6/5 : ℚ)) st.silenceChunkCount
              ((r :: rest).take 1) = st.silenceChunkCount + 1 := by
            simp [foldSilenceCount, stepSilenceCount, hlt]
          rw [this]
          exact hcnt
      | k + 1 =>
          have hev2 : (runDetector cfg (processRms cfg st r).1 rest).2.get? k =
              some (some SpeechEvent.speechEnded) := hev
          obtain ⟨r2, hget, hlt, hcnt⟩ := ih (processRms cfg st r).1 k
            (by rw [processRms_relThreshold, hT]) hev2
          refine ⟨r2, hget, hlt, ?_⟩
          have hfold : foldSilenceCount T (T * (6/5 : ℚ)) st.silenceChunkCount
              ((r :: rest).take (k + 2)) =
              foldSilenceCount T (T * (6/5 : ℚ))
                (processRms cfg st r).1.silenceChunkCount
                (rest.take (k + 1)) := by
            rw [List.take_cons (Nat.succ_pos (k + 1))]
            unfold foldSilenceCount
            rw [List.foldl_cons]
            rw [processRms_silenceCount, hthr]
            norm_num
          rw [hfold]
          exact hcnt

/-- C8 counterexample: on the RMS trace [1000, 100, 400, 100] the
detector emits speech_ended at the fourth chunk, yet the final
silence-window chunks [400, 100] were not all below the threshold 350:
the 400-RMS chunk sits between the silence and speech thresholds, which
neither counts as silence nor resets the counter, so the emission does
not require the RMS to stay below the threshold for the full sustained
window of consecutive chunks. -/
theorem silence_midband_counterexample :
    (runDetector cfgMid stMid [1000, 100, 400, 100]).2 =
      [some SpeechEvent.speechStarted, none, none,
        some SpeechEvent.speechEnded] ∧
    setBaselineEnergy cfgMid ⟨false, 0, 0, none, none⟩ 1000 = stMid ∧
    mkSilenceChunksNeeded 60 30 = 2 ∧
    ¬((400 : ℚ) < 350) := by
  refine ⟨?_, ?_, by norm_num [mkSilenceChunksNeeded], by norm_num⟩
  · norm_num [runDetector, processRms, thresholdsOf, cfgMid, stMid,
      mkSilenceChunksNeeded]
  · norm_num [setBaselineEnergy, cfgMid, stMid]

/-- C8 amended: in relative mode, after _start_streaming establishes the
baseline as the mean RMS of the recorded pre-trigger window, the
adaptive silence threshold equals baseline * ratio; and whenever the
detector emits speech_ended at some chunk, the RMS of that chunk is below the
threshold and at least max(1, silence_duration_ms / chunk_duration_ms)
chunks so far counted as silence - where a chunk below the threshold
counts, a chunk above 1.2 * threshold resets the count, and a chunk in
between neither counts nor resets (so the counted chunks need not be
consecutive). -/
theorem silence_detection_spec (cfg : SilenceConfig) (st0 : DetectorState)
    (samples : List ℚ) (rs : List ℚ) (k : Nat)
    (hrel : cfg.useRelativeThreshold = true)
    (hs : samples ≠ []) (hpos : 0 < meanRms samples) :
    (startStreamingDetector cfg st0 samples).relativeSilenceThreshold =
      some (meanRms samples * cfg.relativeFraction) ∧
    ((runDetector cfg (startStreamingDetector cfg st0 samples) rs).2.get? k =
        some (some SpeechEvent.speechEnded) →
      ∃ r, rs.get? k = some r ∧
        r < meanRms samples * cfg.relativeFraction ∧
        cfg.silenceChunksNeeded ≤
          foldSilenceCount (meanRms samples * cfg.relativeFraction)
            (meanRms samples * cfg.relativeFraction * (6/5 : ℚ)) 0
            (rs.take (k + 1))) := by
  have hempty : samples.isEmpty = false := by
    rcases samples with _ | ⟨a, l⟩
    · exact absurd rfl hs
    · rfl
  have hT : (startStreamingDetector cfg st0 samples).relativeSilenceThreshold =
      some (meanRms samples * cfg.relativeFraction) := by
    unfold startStreamingDetector resetDetector setBaselineEnergy
    rw [hempty, hrel]
    simp [hpos]
  refine ⟨hT, ?_⟩
  intro hev
  have h0 : (startStreamingDetector cfg st0 samples).silenceChunkCount = 0 := by
    unfold startStreamingDetector resetDetector
    rfl
  have := runDetector_ended_count cfg
    (meanRms samples * cfg.relativeFraction) hrel rs
    (startStreamingDetector cfg st0 samples) k hT hev
  rw [h0] at this
  exact this

/-- Witness for the amended C8 theorem: pre-trigger window [1000] gives
threshold 350, and the trace [1000, 100, 100] ends with an emission at
index 2. -/
theorem silence_detection_spec_witness :
    ((startStreamingDetector cfgMid ⟨false, 0, 0, none, none⟩
        [1000]).relativeSilenceThreshold =
      some (meanRms [1000] * cfgMid.relativeFraction)) ∧
    ((runDetector cfgMid
        (startStreamingDetector cfgMid ⟨false, 0, 0, none, none⟩ [1000])
        [1000, 100, 100]).2.get? 2 =
        some (some SpeechEvent.speechEnded) →
      ∃ r, ([1000, 100, 100] : List ℚ).get? 2 = some r ∧
        r < meanRms [1000] * cfgMid.relativeFraction ∧
        cfgMid.silenceChunksNeeded ≤
          foldSilenceCount (meanRms [1000] * cfgMid.relativeFraction)
            (meanRms [1000] * cfgMid.relativeFraction * (6/5 : ℚ)) 0
            (([1000, 100, 100] : List ℚ).take 3)) :=
  silence_detection_spec cfgMid ⟨false, 0, 0, none, none⟩ [1000]
    [1000, 100, 100] 2 rfl (by decide) (by norm_num [meanRms])

lemma scanFrames_append (a b : List Frame) : ∀ o p,
    scanFrames o p (a ++ b) =
      match scanFrames o p a with
      | some (o2, p2) => scanFrames o2 p2 b
      | none => none := by
  induction a with
  | nil => intro o p; rfl
  | cons f rest ih =>
      intro o p
      match f with
      | Frame.binary payload =>
          by_cases ho : o = true
          · subst ho
            simpa [scanFrames] using ih true true
          · rw [Bool.not_eq_true] at ho
            subst ho
            simp [scanFrames]
      | Frame.ctrlAudioStart => simpa [scanFrames] using ih true p
      | Frame.ctrlAudioEnd => simpa [scanFrames] using ih false false
      | Frame.ctrlStopPlayback => simpa [scanFrames] using ih false false
      | Frame.ctrlOther => simpa [scanFrames] using ih o p

lemma scanFrames_binaries (bs : List (List Nat)) : ∀ p,
    ∃ p2, scanFrames true p (bs.map Frame.binary) = some (true, p2) := by
  induction bs with
  | nil => intro p; exact ⟨p, rfl⟩
  | cons b rest ih =>
      intro p
      obtain ⟨p2, hp2⟩ := ih true
      exact ⟨p2, by simpa [scanFrames] using hp2⟩

lemma scanFrames_welcome (chunks : List (List Nat)) :
    scanFrames false false (welcomeFrames chunks) = some (false, false) := by
  unfold welcomeFrames
  split
  · rfl
  · obtain ⟨p2, hp2⟩ := scanFrames_binaries chunks false
    have : scanFrames false false
        ([Frame.ctrlAudioStart] ++ chunks.map Frame.binary ++
          [Frame.ctrlAudioEnd]) =
        scanFrames true false (chunks.map Frame.binary ++
          [Frame.ctrlAudioEnd]) := rfl
    rw [this, scanFrames_append, hp2]
    rfl

lemma scanFrames_event (e : SessionEvent) (o p : Bool)
    (himp : p = true → o = true) :
    ∃ p2, scanFrames o p (framesOfEvent o e).1 =
        some ((framesOfEvent o e).2, p2) ∧
      (p2 = true → (framesOfEvent o e).2 = true) := by
  match e with
  | SessionEvent.ttsChunk text audio =>
      by_cases hblank : (pyStrip text == []) = true
      · refine ⟨p, ?_, ?_⟩
        · simp [framesOfEvent, hblank, scanFrames]
        · intro hpp
          simp only [framesOfEvent, hblank, if_true]
          exact himp hpp
      · rw [Bool.not_eq_true] at hblank
        have hbins :
            (audio.filter (fun c => !c.isEmpty)).map Frame.binary ++
              [Frame.binary silencePadding] =
            ((audio.filter (fun c => !c.isEmpty)) ++ [silencePadding]).map
              Frame.binary := by
          rw [List.map_append]
          rfl
        obtain ⟨p2, hp2⟩ := scanFrames_binaries
          ((audio.filter (fun c => !c.isEmpty)) ++ [silencePadding]) p
        refine ⟨p2, ?_, ?_⟩
        · by_cases ho : o = true
          · subst ho
            simp only [framesOfEvent, hblank, Bool.false_eq_true, if_false,
              if_true, List.nil_append]
            rw [hbins]
            exact hp2
          · rw [Bool.not_eq_true] at ho
            subst ho
            simp only [framesOfEvent, hblank, Bool.false_eq_true, if_false,
              List.cons_append, List.nil_append]
            show scanFrames true p
              ((audio.filter (fun c => !c.isEmpty)).map Frame.binary ++
                [Frame.binary silencePadding]) = some (true, p2)
            rw [hbins]
            exact hp2
        · intro _
          simp [framesOfEvent, hblank]
  | SessionEvent.interrupt =>
      by_cases ho : o = true
      · subst ho
        refine ⟨false, ?_, by simp [framesOfEvent]⟩
        simp [framesOfEvent, scanFrames]
      · rw [Bool.not_eq_true] at ho
        subst ho
        have hp : p = false := by
          cases p
          · rfl
          · exact absurd (himp rfl) (by simp)
        subst hp
        refine ⟨false, ?_, by simp [framesOfEvent]⟩
        simp [framesOfEvent, scanFrames]

lemma scanFrames_events : ∀ (events : List SessionEvent) (o p : Bool),
    (p = true → o = true) →
    ∃ p2, scanFrames o p (framesOfEvents o events).1 =
        some ((framesOfEvents o events).2, p2) ∧
      (p2 = true → (framesOfEvents o events).2 = true) := by
  intro events
  induction events with
  | nil => intro o p himp; exact ⟨p, rfl, himp⟩
  | cons e es ih =>
      intro o p himp
      obtain ⟨p1, hscan1, himp1⟩ := scanFrames_event e o p himp
      obtain ⟨p2, hscan2, himp2⟩ := ih (framesOfEvent o e).2 p1 himp1
      refine ⟨p2, ?_, himp2⟩
      show scanFrames o p ((framesOfEvent o e).1 ++
        (framesOfEvents (framesOfEvent o e).2 es).1) = _
      rw [scanFrames_append, hscan1]
      exact hscan2

/-- C1: over any complete connection (welcome audio, any sequence of TTS
chunk deliveries and interrupts, then disconnect), every binary PCM
frame the server sends is preceded by a stream_start with no intervening
stream_end or stop_playback, and is followed by a stream_end or
stop_playback: streams are well bracketed. -/
theorem session_frames_well_bracketed (welcomeChunks : List (List Nat))
    (events : List SessionEvent) :
    framesWellBracketed (sessionFrames welcomeChunks events) = true := by
  unfold framesWellBracketed sessionFrames
  obtain ⟨p2, hscan, himp⟩ := scanFrames_events events false false
    (fun h => absurd h (by simp))
  rw [scanFrames_append, scanFrames_append, scanFrames_welcome]
  dsimp only
  rw [hscan]
  dsimp only
  unfold disconnectFrames
  by_cases hopen : (framesOfEvents false events).2 = true
  · rw [hopen]
    simp [scanFrames]
  · rw [Bool.not_eq_true] at hopen
    rw [hopen]
    have hp2 : p2 = false := by
      cases p2
      · rfl
      · exact absurd (himp rfl) (by simp [hopen])
    subst hp2
    simp [scanFrames]

end JinAI
